import Mathlib

/-!
Verification of the twitch-tts-help repository: a shallow embedding of the
two core services (`TwitchChatService` in
`src/services/TwitchChatService.ts`, shipped concatenated inside
`src/services/QueueManager.ts` in this snapshot, and
`QueueManager`/`TTSService`) plus the message filter
(`shouldProcessMessage` in `src/contexts/TTSContext.tsx`).

Strings are modelled as `List Char`.  JavaScript single-threaded
event-loop code is modelled as explicit state passing: each macrotask
(event-handler or timer callback) is one transition, with the microtask
queue (promise continuations created by `await`) drained at the end of
the transition, exactly as the browser drains microtasks before running
the next macrotask.  Probabilistic ids (`Date.now()` + random suffix)
are modelled by a fresh-counter field; timestamps are omitted.
-/

set_option maxRecDepth 10000

/-! ### Character helpers (JS semantics, ASCII fragment) -/

/-- JS `\s` for the ASCII fragment relevant to this code base. -/
def isSpaceJS (c : Char) : Bool :=
  c = ' ' ∨ c = '\t' ∨ c = '\n' ∨ c = '\r' ∨ c = '\x0b' ∨ c = '\x0c'

/-- JS `\w`: `[A-Za-z0-9_]`. -/
def isWordCharJS (c : Char) : Bool :=
  ('A' ≤ c ∧ c ≤ 'Z') ∨ ('a' ≤ c ∧ c ≤ 'z') ∨ ('0' ≤ c ∧ c ≤ '9') ∨ c = '_'

def isUpperAZ (c : Char) : Bool := 'A' ≤ c ∧ c ≤ 'Z'

/-- JS `String.prototype.toLowerCase` on the ASCII fragment. -/
def toLowerStr (l : List Char) : List Char := l.map Char.toLower

/-- Drop a literal from the front of a list, or fail. -/
def dropLit : List Char → List Char → Option (List Char)
  | [], l => some l
  | _ :: _, [] => none
  | c :: cs, d :: ds => if c = d then dropLit cs ds else none

/-! ### `TwitchChatService.parseIRCMessage` and its helpers -/

/-- The parsed chat message produced by `parseIRCMessage`
(`id`/`timestamp`, which the parser mints fresh, are omitted). -/
structure ChatMessage where
  username : List Char
  message : List Char
  isBot : Bool
  badges : List (List Char)
deriving DecidableEq, Repr

/-- The match of the regex
`^@([^:]*):([^!]+)![^@]+@[^.]+\.tmi\.twitch\.tv PRIVMSG #[^\s]+ :(.+)$`
from `parseIRCMessage`, returning the three capture groups
(tags, username, message text).  Each negated character class is
deterministic (it cannot consume its closing delimiter), so greedy
matching needs no backtracking; `.` excludes line terminators. -/
def matchPrivmsg (line : List Char) : Option (List Char × List Char × List Char) :=
  match line with
  | '@' :: rest =>
    let tags := rest.takeWhile (fun c => ¬ c = ':')
    match rest.drop tags.length with
    | ':' :: r1 =>
      let user := r1.takeWhile (fun c => ¬ c = '!')
      if user = [] then none else
      match r1.drop user.length with
      | '!' :: r2 =>
        let p2 := r2.takeWhile (fun c => ¬ c = '@')
        if p2 = [] then none else
        match r2.drop p2.length with
        | '@' :: r3 =>
          let p3 := r3.takeWhile (fun c => ¬ c = '.')
          if p3 = [] then none else
          match r3.drop p3.length with
          | '.' :: r4 =>
            match dropLit ("tmi.twitch.tv PRIVMSG #".toList) r4 with
            | some r5 =>
              let chan := r5.takeWhile (fun c => ¬ isSpaceJS c)
              if chan = [] then none else
              match r5.drop chan.length with
              | ' ' :: ':' :: text =>
                if text = [] then none
                else if text.any (fun c => c = '\n' ∨ c = '\r') then none
                else some (tags, user, text)
              | _ => none
            | none => none
          | _ => none
        | _ => none
      | _ => none
    | _ => none
  | _ => none

/-- One `tags[key] = value` assignment of `parseTags` (later keys win). -/
def setTag (m : List (List Char × List Char)) (k v : List Char) :
    List (List Char × List Char) :=
  m.filter (fun p => ¬ p.1 = k) ++ [(k, v)]

/-- `TwitchChatService.parseTags`: split on `;`, then on `=`; keep a pair
only when the key is non-empty and a `=` was present (JS keeps only the
first two `split("=")` parts). -/
def parseTags (tagsString : List Char) : List (List Char × List Char) :=
  (List.splitOn ';' tagsString).foldl
    (fun acc tag =>
      match List.splitOn '=' tag with
      | k :: v :: _ => if k = [] then acc else setTag acc k v
      | _ => acc)
    []

def lookupTag (m : List (List Char × List Char)) (k : List Char) :
    Option (List Char) :=
  (m.find? (fun p => p.1 = k)).map (fun p => p.2)

/-- `TwitchChatService.parseBadges`: empty string gives `[]`; otherwise
split on `,`, keep the part before the first `/`, drop empties. -/
def parseBadges (badgesString : List Char) : List (List Char) :=
  if badgesString = [] then []
  else ((List.splitOn ',' badgesString).map
          (fun badge => badge.takeWhile (fun c => ¬ c = '/'))).filter
        (fun n => ¬ n = [])

/-- Substring test (JS `String.prototype.includes`). -/
def containsSub (needle : List Char) : List Char → Bool
  | [] => List.isPrefixOf needle []
  | c :: rest => List.isPrefixOf needle (c :: rest) || containsSub needle rest

/-- `TwitchChatService.isUserBot`: the username matches one of the fixed
bot regexes (`/bot$/i`, `/^nightbot$/i`, `/^streamlabs$/i`,
`/^streamelements$/i`, `/^moobot$/i`, `/^fossabot$/i`), or the raw
badges *string* contains the substring `bot`. -/
def isUserBot (username : List Char) (badges : List Char) : Bool :=
  let u := toLowerStr username
  (List.isSuffixOf ("bot".toList) u
    || decide (u = "nightbot".toList)
    || decide (u = "streamlabs".toList)
    || decide (u = "streamelements".toList)
    || decide (u = "moobot".toList)
    || decide (u = "fossabot".toList))
  || containsSub ("bot".toList) badges

/-- `TwitchChatService.parseIRCMessage`: regex match, tag parsing, bot
detection, badge extraction (fresh id and timestamp omitted). -/
def parseIRCMessage (line : List Char) : Option ChatMessage :=
  match matchPrivmsg line with
  | none => none
  | some (tagsString, username, text) =>
    let tags := parseTags tagsString
    let badgesStr := (lookupTag tags ("badges".toList)).getD []
    let isBot := isUserBot username badgesStr
    let badges := parseBadges badgesStr
    some { username := username, message := text, isBot := isBot, badges := badges }

/-! ### `shouldProcessMessage` (`src/contexts/TTSContext.tsx`) -/

/-- The fields of `TTSSettings` that `shouldProcessMessage` reads
(`volume`/`rate`/`pitch`/`voice` are not consulted by the filter). -/
structure TTSSettings where
  enabled : Bool
  filterBots : Bool
  minMessageLength : Nat
  blockedUsers : List (List Char)
  skipEmoteOnly : Bool
deriving DecidableEq, Repr

/-- The emote-only heuristic inside `shouldProcessMessage`:
`/^[A-Z\s]+$/.test(message)` (non-empty, only `A`-`Z` and whitespace)
and length below 20. -/
def isLikelyEmoteOnly (text : List Char) : Bool :=
  (¬ text = [] && text.all (fun c => isUpperAZ c || isSpaceJS c))
    && text.length < 20

/-- `shouldProcessMessage`: the five filter conditions, tested in source
order with early-return `false`. -/
def shouldProcessMessage (message : ChatMessage) (settings : TTSSettings) : Bool :=
  if ¬ settings.enabled then false
  else if settings.filterBots && message.isBot then false
  else if message.message.length < settings.minMessageLength then false
  else if settings.blockedUsers.contains (toLowerStr message.username) then false
  else if settings.skipEmoteOnly && isLikelyEmoteOnly message.message then false
  else true

/-! ### `TTSService.preprocessMessage` -/

/-- Match of `https?:\/\/[^\s]+` at the head of the list, returning the
remainder after the match (greedy `s?` first, then the mandatory
`://` and at least one non-space character). -/
def urlTail (l : List Char) : Option (List Char) :=
  match l with
  | ':' :: '/' :: '/' :: rest =>
    let tok := rest.takeWhile (fun c => ¬ isSpaceJS c)
    if tok = [] then none else some (rest.drop tok.length)
  | _ => none

def matchUrl (l : List Char) : Option (List Char) :=
  match l with
  | 'h' :: 't' :: 't' :: 'p' :: rest =>
    (match rest with
     | 's' :: r => urlTail r
     | _ => none).orElse (fun _ => urlTail rest)
  | _ => none

/-- `processed.replace(/https?:\/\/[^\s]+/g, 'link')`, scanning left to
right (fuel = input length, consumed at least one char per step). -/
def replaceUrlsF : Nat → List Char → List Char
  | 0, l => l
  | _ + 1, [] => []
  | f + 1, c :: rest =>
    match matchUrl (c :: rest) with
    | some rem => "link".toList ++ replaceUrlsF f rem
    | none => c :: replaceUrlsF f rest

def replaceUrls (l : List Char) : List Char := replaceUrlsF l.length l

/-- `processed.replace(/\b[A-Z]{3,}\b/g, '')`.  With word boundaries on
both sides and a greedy `[A-Z]{3,}` this regex deletes exactly the
maximal `\w`-runs that consist solely of `A`-`Z` and have length at
least 3 (a run adjacent to another word character never matches, since
every backtracked endpoint still violates `\b`). -/
def replaceCapsF : Nat → List Char → List Char
  | 0, l => l
  | _ + 1, [] => []
  | f + 1, c :: rest =>
    if isWordCharJS c then
      let run := (c :: rest).takeWhile isWordCharJS
      let rem := (c :: rest).drop run.length
      (if run.all isUpperAZ && 3 ≤ run.length then [] else run) ++ replaceCapsF f rem
    else c :: replaceCapsF f rest

def replaceCaps (l : List Char) : List Char := replaceCapsF l.length l

/-- `processed.replace(/[^\w\s.,!?'-]/g, ' ')`. -/
def keepBasicChars (l : List Char) : List Char :=
  l.map (fun c =>
    if isWordCharJS c || isSpaceJS c || c = '.' || c = ',' || c = '!' || c = '?'
        || c = '\'' || c = '-' then c else ' ')

/-- `processed.replace(/\s+/g, ' ')`. -/
def collapseSpacesF : Nat → List Char → List Char
  | 0, l => l
  | _ + 1, [] => []
  | f + 1, c :: rest =>
    if isSpaceJS c then ' ' :: collapseSpacesF f (rest.dropWhile isSpaceJS)
    else c :: collapseSpacesF f rest

def collapseSpaces (l : List Char) : List Char := collapseSpacesF l.length l

/-- JS `String.prototype.trim` (ASCII whitespace fragment). -/
def trimJS (l : List Char) : List Char :=
  ((l.dropWhile isSpaceJS).reverse.dropWhile isSpaceJS).reverse

/-- `TTSService.preprocessMessage`: URL replacement, emote removal,
special-character removal, whitespace collapsing, trim, 200-char cap. -/
def preprocessMessage (message : List Char) : List Char :=
  let processed := replaceUrls message
  let processed := replaceCaps processed
  let processed := keepBasicChars processed
  let processed := collapseSpaces processed
  let processed := trimJS processed
  if 200 < processed.length then processed.take 200 ++ "...".toList
  else processed

/-- `TTSService.speak` throws `Message is empty after preprocessing`
exactly when this is `false` (`!processedText.trim()`). -/
def speakableMsg (m : ChatMessage) : Bool :=
  ¬ trimJS (preprocessMessage m.message) = []

/-! ### The narration queue engine: `QueueManager` + `TTSService`

The engine is event-driven, single-threaded JavaScript.  We model each
macrotask (public call, `setTimeout` callback, utterance `end`/`error`
event) as one transition on an explicit state, and fold in the promise
continuations (`await this.processingPromise` inside `processNext`)
as a FIFO microtask queue drained at the end of every transition.

Key source facts encoded below:
* `TTSService.speak` is an `async` function with no internal `await`:
  its body runs synchronously to completion at the call site and the
  returned promise is already settled when `processNext` awaits it.
  The two guard `throw`s (unsupported/disabled and
  `Another message is currently being spoken`) sit *before* the
  `try`, so they reject the promise without emitting `tts:error`;
  an empty-after-preprocessing message throws *inside* the `try`,
  which synchronously emits `tts:error` (running
  `QueueManager.handleTTSError` re-entrantly) and then rejects.
* On a successful `speak`, completion is signalled later through the
  utterance's `end`/`error` browser events, not through the promise.
* Each `processNext` activation awaits the promise of its *own*
  `speak` call; the continuation for a rejected promise is the `catch`
  block of `processNext` (lines 258-270 of `QueueManager.ts`).
* `queue-...` item ids are modelled by the fresh counter `nextItemId`;
  `processingPromise` is not state (each activation awaits the promise
  assigned at that activation; the field is never read otherwise).
* `emitQueueUpdate`/`queue:cleared` notify external listeners only, so
  they do not change engine state; `console` logging is modelled by
  the `errorLog` instrumentation field, and the `status = 'completed'`
  mutations by the `completedLog` field.  `speakLog` records every
  message actually handed to `synthesis.speak`, in call order, and
  `arrivalLog` every message passed to `add`, in call order.
-/

inductive QStatus where
  | pending
  | speaking
  | completed
deriving DecidableEq, Repr

/-- `TTSQueueItem`. -/
structure QItem where
  id : Nat
  message : ChatMessage
  status : QStatus
deriving DecidableEq, Repr

/-- Settlement of the promise a `processNext` activation awaits. -/
inductive SpeakOutcome where
  | resolved
  | rejected
deriving DecidableEq, Repr

/-- Combined state of one `QueueManager` and its `TTSService`, together
with the browser pieces they drive (`speechSynthesis` utterance queue,
pending `setTimeout(processNext, 0)` tasks, pending microtasks). -/
structure QMState where
  /-- `QueueManager.queue` (pending backlog). -/
  queue : List QItem
  /-- `QueueManager.currentItem`. -/
  currentItem : Option QItem
  /-- `QueueManager.isProcessing`. -/
  isProcessing : Bool
  /-- fresh-id counter for created queue items. -/
  nextItemId : Nat
  /-- number of pending `setTimeout(() => this.processNext(), 0)` tasks. -/
  tasks : Nat
  /-- `TTSService.settings.enabled`. -/
  enabled : Bool
  /-- `TTSService.isSupported()` (environment, constant per run). -/
  supported : Bool
  /-- `TTSService.currentUtterance` (the item whose utterance it is). -/
  currentUtterance : Option QItem
  /-- utterances handed to `speechSynthesis.speak` and not yet finished
  or cancelled; head is the one being narrated.  `synthesis.speaking`
  is `synthQueue ≠ []`. -/
  synthQueue : List QItem
  /-- pending promise continuations of suspended `processNext`
  activations, in enqueue (FIFO) order. -/
  microtasks : List SpeakOutcome
  /-- instrumentation: messages passed to `synthesis.speak`, in order. -/
  speakLog : List ChatMessage
  /-- instrumentation: messages passed to `add`, in order. -/
  arrivalLog : List ChatMessage
  /-- instrumentation: item ids reported on the `tts:error` channel. -/
  errorLog : List Nat
  /-- instrumentation: item ids whose `status` was set to `completed`. -/
  completedLog : List Nat
deriving DecidableEq, Repr

/-- `TTSService.speak` (lines 178-214), synchronous body, with the
re-entrant `tts:error` handler passed as the continuation `onError`:
the two pre-`try` guard throws reject silently (no `tts:error`
emission); an empty preprocessed message clears `currentUtterance`,
emits `tts:error` (running `QueueManager.handleTTSError`
synchronously via `onError`) and rejects; otherwise the utterance is
created, handed to `synthesis.speak`, `tts:started` is emitted (no
queue-side handler), and the promise resolves. -/
def speakCore (onError : QMState → QItem → QMState) (s : QMState)
    (item : QItem) : QMState × SpeakOutcome :=
  if ¬ (s.supported && s.enabled) then (s, SpeakOutcome.rejected)
  else if s.currentUtterance.isSome then (s, SpeakOutcome.rejected)
  else if trimJS (preprocessMessage item.message.message) = [] then
    (onError { s with currentUtterance := none } item, SpeakOutcome.rejected)
  else
    ({ s with currentUtterance := some item,
              synthQueue := s.synthQueue ++ [item],
              speakLog := s.speakLog ++ [item.message] },
     SpeakOutcome.resolved)

/-- `QueueManager.handleTTSError` (lines 293-307) with the recursive
`processNext` call as continuation `next`: log, and if the errored
item is the current one, complete it, clear the slot, stop processing
and immediately try the next item. -/
def handleTTSErrorCore (next : QMState → QMState) (s : QMState)
    (item : QItem) : QMState :=
  let s := { s with errorLog := s.errorLog ++ [item.id] }
  match s.currentItem with
  | some c =>
    if c.id = item.id then
      next { s with completedLog := s.completedLog ++ [c.id],
                    currentItem := none, isProcessing := false }
    else s
  | none => s

/-- `QueueManager.handleTTSEnded` (lines 276-288) with the recursive
`processNext` call as continuation `next`. -/
def handleTTSEndedCore (next : QMState → QMState) (s : QMState)
    (item : QItem) : QMState :=
  match s.currentItem with
  | some c =>
    if c.id = item.id then
      next { s with completedLog := s.completedLog ++ [c.id],
                    currentItem := none, isProcessing := false }
    else s
  | none => s

/-- `QueueManager.processNext` (lines 231-271) up to its `await`, with
`speak` passed as continuation `sp`: guard, shift the head, mark it
`speaking`, set `currentItem`, call `speak`, then `await` (which
enqueues this activation's promise continuation). -/
def processNextCore (sp : QMState → QItem → QMState × SpeakOutcome)
    (s : QMState) : QMState :=
  if s.isProcessing || s.queue.isEmpty then s
  else
    match s.queue with
    | [] => { s with isProcessing := false }
    | x :: rest =>
      let x := { x with status := QStatus.speaking }
      let s := { s with queue := rest, currentItem := some x,
                        isProcessing := true }
      let r := sp s x
      { r.1 with microtasks := r.1.microtasks ++ [r.2] }

/-- The synchronous `processNext`/`speak`/`handleTTSError` recursion,
tied by a fuel parameter.  Every recursive call strictly shrinks the
backlog, so `queue.length + 1` fuel is always enough. -/
def processNextRun : Nat → QMState → QMState
  | 0, s => s
  | f + 1, s =>
    processNextCore (speakCore (handleTTSErrorCore (processNextRun f))) s

def handleTTSErrorRun (f : Nat) : QMState → QItem → QMState :=
  handleTTSErrorCore (processNextRun f)

def speakRun (f : Nat) : QMState → QItem → QMState × SpeakOutcome :=
  speakCore (handleTTSErrorRun f)

def handleTTSEndedRun (f : Nat) : QMState → QItem → QMState :=
  handleTTSEndedCore (processNextRun f)

/-- The `catch` block of `processNext` (lines 258-270), run as the
continuation of a rejected `processingPromise`: complete and clear
whatever `currentItem` holds *now*, reset `isProcessing`, recurse. -/
def catchRun (s : QMState) : QMState :=
  let s :=
    match s.currentItem with
    | some c => { s with completedLog := s.completedLog ++ [c.id],
                         currentItem := none }
    | none => s
  processNextRun (s.queue.length + 1) { s with isProcessing := false }

/-- Drain the microtask queue (FIFO).  A drain step removes one
continuation; a rejected one runs `catchRun`, whose `processNext`
cascade consumes one queue item per continuation it enqueues, so
`microtasks.length + queue.length + 1` fuel is always enough. -/
def drainMicro : Nat → QMState → QMState
  | 0, s => s
  | f + 1, s =>
    match s.microtasks with
    | [] => s
    | mt :: rest =>
      let s := { s with microtasks := rest }
      drainMicro f (match mt with
        | SpeakOutcome.resolved => s
        | SpeakOutcome.rejected => catchRun s)

def drainState (s : QMState) : QMState :=
  drainMicro (s.microtasks.length + s.queue.length + 1) s

/-- `QueueManager.add` (lines 95-111): create a pending item, push it,
and if not processing, schedule a deferred `processNext`. -/
def addRun (s : QMState) (m : ChatMessage) : QItem × QMState :=
  let item : QItem := { id := s.nextItemId, message := m, status := QStatus.pending }
  let s := { s with queue := s.queue ++ [item],
                    nextItemId := s.nextItemId + 1,
                    arrivalLog := s.arrivalLog ++ [m] }
  (item, if s.isProcessing then s else { s with tasks := s.tasks + 1 })

/-- `TTSService.stop` (lines 220-225): cancel the synthesis queue when
speaking, then clear `currentUtterance`. -/
def stopRun (s : QMState) : QMState :=
  let s := if s.synthQueue.isEmpty then s else { s with synthQueue := [] }
  { s with currentUtterance := none }

/-- `QueueManager.skip` (lines 169-185): only when an item is current
*and* the synthesis is speaking; stop, complete, clear the slot, and
call `processNext` directly (without resetting `isProcessing`). -/
def skipRun (s : QMState) : Bool × QMState :=
  if s.currentItem.isNone || s.synthQueue.isEmpty then (false, s)
  else
    let s := stopRun s
    match s.currentItem with
    | some c =>
      let s := { s with completedLog := s.completedLog ++ [c.id],
                        currentItem := none }
      (true, drainState (processNextRun (s.queue.length + 1) s))
    | none => (true, drainState (processNextRun (s.queue.length + 1) s))

/-- `QueueManager.remove` (lines 117-143). -/
def removeRun (s : QMState) (itemId : Nat) : Bool × QMState :=
  match s.currentItem with
  | some c =>
    if c.id = itemId then
      let s := if s.synthQueue.isEmpty then s else stopRun s
      let s := { s with currentItem := none, isProcessing := false,
                        tasks := s.tasks + 1 }
      (true, s)
    else
      let q := s.queue.filter (fun i => ¬ i.id = itemId)
      (decide (q.length < s.queue.length), { s with queue := q })
  | none =>
    let q := s.queue.filter (fun i => ¬ i.id = itemId)
    (decide (q.length < s.queue.length), { s with queue := q })

/-- `QueueManager.clear` (lines 149-163): stop current speech when an
item is current and the synthesis is speaking, then drop everything
(pending `setTimeout` tasks and microtasks survive, as in the source). -/
def clearRun (s : QMState) : QMState :=
  let s := if s.currentItem.isSome && ¬ s.synthQueue.isEmpty
           then stopRun s else s
  { s with queue := [], currentItem := none, isProcessing := false }

/-- The macrotask events the queue engine reacts to. -/
inductive QEvent where
  /-- a caller invokes `add m`. -/
  | add (m : ChatMessage)
  /-- a pending `setTimeout(() => this.processNext(), 0)` fires. -/
  | timeout
  /-- the active utterance fires its `end` event (synthesis pops it,
  the handler clears `currentUtterance` and emits `tts:ended`). -/
  | ended
  /-- the active utterance fires its `error` event (same shape, but the
  handler emits `tts:error`). -/
  | speechError
  /-- a caller invokes `skip()`. -/
  | skip
  /-- a caller invokes `remove itemId`. -/
  | remove (itemId : Nat)
  /-- a caller invokes `clear()`. -/
  | clear
deriving DecidableEq, Repr

/-- One macrotask: run the handler, then drain the microtask queue. -/
def applyQEvent (s : QMState) : QEvent → QMState
  | QEvent.add m => (addRun s m).2
  | QEvent.timeout =>
    if s.tasks = 0 then s
    else
      let s := { s with tasks := s.tasks - 1 }
      drainState (processNextRun (s.queue.length + 1) s)
  | QEvent.ended =>
    match s.synthQueue with
    | [] => s
    | x :: rest =>
      let s := { s with synthQueue := rest, currentUtterance := none }
      drainState (handleTTSEndedRun (s.queue.length + 1) s x)
  | QEvent.speechError =>
    match s.synthQueue with
    | [] => s
    | x :: rest =>
      let s := { s with synthQueue := rest, currentUtterance := none }
      drainState (handleTTSErrorRun (s.queue.length + 1) s x)
  | QEvent.skip => (skipRun s).2
  | QEvent.remove itemId => (removeRun s itemId).2
  | QEvent.clear => clearRun s

/-- Fresh engine with TTS supported and enabled. -/
def initQM : QMState :=
  { queue := [], currentItem := none, isProcessing := false,
    nextItemId := 0, tasks := 0, enabled := true, supported := true,
    currentUtterance := none, synthQueue := [], microtasks := [],
    speakLog := [], arrivalLog := [], errorLog := [], completedLog := [] }

def runQFrom (s : QMState) (es : List QEvent) : QMState :=
  es.foldl applyQEvent s

def runQ (es : List QEvent) : QMState := runQFrom initQM es

/-! ### The connection client: `TwitchChatService`

State machine of `connect`/`disconnect`/WebSocket events/reconnect
timers.  `setTimeout` handles are modelled by fresh numeric ids; the
list `timersArmed` holds the ids of reconnect timers currently armed
in the browser (the field `reconnectTimeout` can go stale: it is not
cleared when a timer fires, exactly as in the source).  `wsGen` counts
`new WebSocket(...)` constructions ("opens a new transport");
`scheduleLog` records every actual `setTimeout` arming performed by
`scheduleReconnect` as (attempt counter at arming, delay); `emitLog`
records emissions, with the terminal
`Max reconnection attempts reached` error distinguished.  WebSocket
construction is assumed to succeed (its `catch` path is not modelled);
the asynchronous `close` event that follows a programmatic
`ws.close()` inside `disconnect()` is not generated — when it fires in
the browser, `isIntentionalDisconnect` is `true` and the state is
already `disconnected`, so the handler changes nothing that the
claims observe. -/

inductive ConnStatus where
  | disconnected
  | connecting
  | connected
  | errorSt
deriving DecidableEq, Repr

inductive CEmit where
  | connectedE
  | disconnectedE
  /-- `chat:error`; the flag marks the terminal
  `Max reconnection attempts reached` emission. -/
  | errorE (maxReached : Bool)
deriving DecidableEq, Repr

structure CCState where
  /-- `connectionStatus`. -/
  status : ConnStatus
  /-- `reconnectAttempts`. -/
  reconnectAttempts : Nat
  /-- `isReconnecting`. -/
  isReconnecting : Bool
  /-- `reconnectTimeout` (the stored `setTimeout` handle, may be stale). -/
  reconnectTimeout : Option Nat
  /-- ids of reconnect timers actually armed in the browser. -/
  timersArmed : List Nat
  /-- fresh timer-id counter. -/
  nextTimerId : Nat
  /-- `isIntentionalDisconnect`. -/
  isIntentionalDisconnect : Bool
  /-- whether `this.ws` is non-null. -/
  ws : Bool
  /-- instrumentation: number of `new WebSocket(...)` constructions. -/
  wsGen : Nat
  /-- instrumentation: (attempts, delay) of each timer actually armed. -/
  scheduleLog : List (Nat × Nat)
  /-- instrumentation: emitted events. -/
  emitLog : List CEmit
deriving DecidableEq, Repr

/-- `maxReconnectAttempts`. -/
def maxReconnectAttempts : Nat := 10

/-- `baseReconnectDelay`. -/
def baseReconnectDelay : Nat := 1000

/-- The delay computed by `scheduleReconnect` (lines 728-731):
`Math.min(baseDelay * 2 ** attempts, 30000)`. -/
def computeDelay (attempts : Nat) : Nat :=
  min (baseReconnectDelay * 2 ^ attempts) 30000

/-- `clearReconnectTimeout` (lines 748-754): cancel the armed timer
whose handle is stored (if any), null the field, and unconditionally
reset `isReconnecting`. -/
def clearReconnectTimeoutRun (s : CCState) : CCState :=
  let s :=
    match s.reconnectTimeout with
    | some id => { s with timersArmed := s.timersArmed.erase id,
                          reconnectTimeout := none }
    | none => s
  { s with isReconnecting := false }

/-- `scheduleReconnect` (lines 711-743): give up with a terminal error
at the ceiling; skip when `isReconnecting` (dead in practice, see the
claim C7 analysis); otherwise set `isReconnecting`, immediately clear
it again via `clearReconnectTimeout`, and arm a fresh timer. -/
def scheduleReconnectRun (s : CCState) : CCState :=
  if maxReconnectAttempts ≤ s.reconnectAttempts then
    { s with emitLog := s.emitLog ++ [CEmit.errorE true],
             isReconnecting := false }
  else if s.isReconnecting then s
  else
    let s := { s with isReconnecting := true }
    let s := clearReconnectTimeoutRun s
    let delay := computeDelay s.reconnectAttempts
    { s with timersArmed := s.timersArmed ++ [s.nextTimerId],
             reconnectTimeout := some s.nextTimerId,
             nextTimerId := s.nextTimerId + 1,
             scheduleLog := s.scheduleLog ++ [(s.reconnectAttempts, delay)] }

/-- `connect` (lines 451-475): no-op when already
connecting/connected, no-op when `isIntentionalDisconnect` is set
(the reset of that flag sits *after* this guard in the source);
otherwise transition to `connecting` and construct a new WebSocket. -/
def connectRun (s : CCState) : CCState :=
  if s.status = ConnStatus.connecting || s.status = ConnStatus.connected then s
  else if s.isIntentionalDisconnect then s
  else
    let s := { s with isIntentionalDisconnect := false }
    let s := { s with status := ConnStatus.connecting }
    { s with ws := true, wsGen := s.wsGen + 1 }

/-- `disconnect` (lines 480-491). -/
def disconnectRun (s : CCState) : CCState :=
  let s := { s with isIntentionalDisconnect := true }
  let s := clearReconnectTimeoutRun s
  let s := if s.ws then { s with ws := false } else s
  { s with status := ConnStatus.disconnected,
           emitLog := s.emitLog ++ [CEmit.disconnectedE] }

/-- `handleConnectionOpen` (lines 543-555): handshake frames are sent
(pure output, not modelled as state), the attempt counter resets, the
status becomes `connected`. -/
def handleConnectionOpenRun (s : CCState) : CCState :=
  { s with reconnectAttempts := 0, status := ConnStatus.connected,
           emitLog := s.emitLog ++ [CEmit.connectedE] }

/-- `handleConnectionClose` (lines 678-689). -/
def handleConnectionCloseRun (s : CCState) : CCState :=
  let s := { s with ws := false, status := ConnStatus.disconnected,
                    emitLog := s.emitLog ++ [CEmit.disconnectedE] }
  if s.isIntentionalDisconnect then s else scheduleReconnectRun s

/-- `handleConnectionError` (lines 695-705). -/
def handleConnectionErrorRun (s : CCState) : CCState :=
  let s := { s with status := ConnStatus.errorSt,
                    emitLog := s.emitLog ++ [CEmit.errorE false] }
  if s.isIntentionalDisconnect then s else scheduleReconnectRun s

/-- Macrotask events of the connection client.  The WebSocket events
require a transport to exist; a reconnect timer can fire only while
armed. -/
inductive CEvent where
  | connectCall
  | disconnectCall
  | openEvt
  | closeEvt
  | errorEvt
  | timerFire
deriving DecidableEq, Repr

/-- One macrotask.  `timerFire` models the `setTimeout` callback of
`scheduleReconnect` (lines 737-742): the timer leaves the browser's
armed set (the stored handle goes stale), the attempt counter is
incremented, `connect()` runs, and the `.finally` clears
`isReconnecting`. -/
def applyCEvent (s : CCState) : CEvent → CCState
  | CEvent.connectCall => connectRun s
  | CEvent.disconnectCall => disconnectRun s
  | CEvent.openEvt => if s.ws then handleConnectionOpenRun s else s
  | CEvent.closeEvt => if s.ws then handleConnectionCloseRun s else s
  | CEvent.errorEvt => if s.ws then handleConnectionErrorRun s else s
  | CEvent.timerFire =>
    match s.timersArmed with
    | [] => s
    | tid :: _ =>
      let s := { s with timersArmed := s.timersArmed.erase tid }
      let s := { s with reconnectAttempts := s.reconnectAttempts + 1 }
      let s := connectRun s
      { s with isReconnecting := false }

def initCC : CCState :=
  { status := ConnStatus.disconnected, reconnectAttempts := 0,
    isReconnecting := false, reconnectTimeout := none, timersArmed := [],
    nextTimerId := 0, isIntentionalDisconnect := false, ws := false,
    wsGen := 0, scheduleLog := [], emitLog := [] }

def runCCFrom (s : CCState) (es : List CEvent) : CCState :=
  es.foldl applyCEvent s

def runCC (es : List CEvent) : CCState := runCCFrom initCC es

/-! ### Predicates and concrete fixtures used by the theorems -/

/-- Events of normal queue operation: no `remove`/`skip`/`clear`, and
every added message survives preprocessing (so `speak` succeeds). -/
def goodQEv : QEvent → Bool
  | QEvent.add m => speakableMsg m
  | QEvent.timeout => true
  | QEvent.ended => true
  | QEvent.speechError => true
  | _ => false

/-- Queue events that never involve `remove`/`clear` (the only two
operations that reset `isProcessing` once `skip` has wedged it). -/
def noRescueEv : QEvent → Bool
  | QEvent.add _ => true
  | QEvent.timeout => true
  | QEvent.ended => true
  | QEvent.speechError => true
  | QEvent.skip => true
  | _ => false

/-- The healthy-engine invariant of the narration queue under normal
operation: the service is usable, microtasks are drained, arrivals are
exactly the spoken messages followed by the backlog (in order), backlog
items are pending and speakable, and the active slot, the service's
utterance and the synthesis queue agree. -/
def GoodState (s : QMState) : Prop :=
  s.enabled = true ∧ s.supported = true ∧ s.microtasks = [] ∧
  s.arrivalLog = s.speakLog ++ s.queue.map (fun i => i.message) ∧
  (∀ i ∈ s.queue, i.status = QStatus.pending ∧ speakableMsg i.message = true) ∧
  s.currentUtterance = s.currentItem ∧
  s.synthQueue = s.currentItem.toList ∧
  s.isProcessing = s.currentItem.isSome

/-- The wedged state left behind by `skip`: `isProcessing` stuck `true`
with nothing current, no armed deferred task, nothing speaking. -/
def StalledQ (s : QMState) : Prop :=
  s.isProcessing = true ∧ s.tasks = 0 ∧ s.synthQueue = [] ∧
  s.currentItem = none ∧ s.microtasks = []

/-- Timer invariant of the connection client: at most one reconnect
timer armed, and an armed timer's handle is the stored one. -/
def CCTimerInv (s : CCState) : Prop :=
  s.timersArmed = [] ∨
    ∃ tid, s.timersArmed = [tid] ∧ s.reconnectTimeout = some tid

/-- Message whose text `***` preprocesses to the empty string
(every `*` is outside `[^\w\s.,!?'-]` and becomes a space). -/
def badMsgFx : ChatMessage :=
  { username := "eve".toList, message := "***".toList,
    isBot := false, badges := [] }

def okMsgFx : ChatMessage :=
  { username := "alice".toList, message := "hello".toList,
    isBot := false, badges := [] }

def okMsg2Fx : ChatMessage :=
  { username := "carol".toList, message := "world".toList,
    isBot := false, badges := [] }

/-- Queue state after adding the empty-preprocessing message and a
normal message and letting the first deferred `processNext` run. -/
def c1sFx : QMState :=
  runQ [QEvent.add badMsgFx, QEvent.add okMsgFx, QEvent.timeout]

/-- Queue state narrating `okMsgFx` with `okMsg2Fx` pending, all
deferred tasks fired. -/
def c3preFx : QMState :=
  runQ [QEvent.add okMsgFx, QEvent.add okMsg2Fx, QEvent.timeout, QEvent.timeout]

/-- Queue state narrating `okMsgFx` with `okMsg2Fx` pending (one
deferred task still armed). -/
def c4sFx : QMState :=
  runQ [QEvent.add okMsgFx, QEvent.add okMsg2Fx, QEvent.timeout]

def c4xFx : QItem :=
  { id := 0, message := okMsgFx, status := QStatus.speaking }

def c4yFx : QItem :=
  { id := 1, message := okMsg2Fx, status := QStatus.pending }

/-- Connection state right after a completed caller-initiated
`disconnect()` (connect, successful open, disconnect). -/
def c5sFx : CCState :=
  runCC [CEvent.connectCall, CEvent.openEvt, CEvent.disconnectCall]

/-- Connection state with the retry ceiling reached. -/
def cc10Fx : CCState := { initCC with reconnectAttempts := 10 }

/-- Connection state with one reconnect timer armed (a transport error
during the first connection attempt). -/
def c7s1Fx : CCState := runCC [CEvent.connectCall, CEvent.errorEvt]

/-- The filter settings of the claim C9 scenario (fields the scenario
leaves unspecified are `false`). -/
def c9settingsFx : TTSSettings :=
  { enabled := true, filterBots := false, minMessageLength := 3,
    blockedUsers := ["bob".toList], skipEmoteOnly := false }

def lineBotFx : List Char :=
  "@badges= :helperbot!helperbot@helperbot.tmi.twitch.tv PRIVMSG #chan :hi".toList

/-- What `parseIRCMessage` yields on `lineBotFx` (the `badges=` tag has
the value `" "`, whose only badge name is the non-empty `" "` — in
particular no `bot` badge marker). -/
def mBotFx : ChatMessage :=
  { username := "helperbot".toList, message := "hi".toList,
    isBot := true, badges := [" ".toList] }

/-! ### Claim C8: parsing the example line; non-matching lines ignored -/

/-- C8: parsing
`@badges=moderator/1 :alice!alice@alice.tmi.twitch.tv PRIVMSG #chan :Hello there`
yields username `alice`, text `Hello there`, badge list `[moderator]`
(only badge names retained) and `isBot = false`; and every inbound
line that does not match the chat-line grammar (the PRIVMSG regex)
yields no message. -/
theorem c8_parse_example_line_and_ignore_rest :
    parseIRCMessage
        ("@badges=moderator/1 :alice!alice@alice.tmi.twitch.tv PRIVMSG #chan :Hello there".toList)
      = some { username := "alice".toList, message := "Hello there".toList,
               isBot := false, badges := ["moderator".toList] }
    ∧ ∀ line : List Char, matchPrivmsg line = none → parseIRCMessage line = none := by
  constructor
  · decide
  · intro line h
    simp [parseIRCMessage, h]

theorem c8_parse_example_line_and_ignore_rest_witness :
    matchPrivmsg ("PING :tmi.twitch.tv".toList) = none ∧
      parseIRCMessage ("PING :tmi.twitch.tv".toList) = none :=
  ⟨by decide, c8_parse_example_line_and_ignore_rest.2 _ (by decide)⟩

/-! ### Claim C9: the filter scenario and the five conditions -/

/-- C9: under `{enabled := true, minMessageLength := 3,
blockedUsers := [bob]}` the filter rejects `bob`'s `hi there`
(blocklist on the lowercased username), rejects `alice`'s `hi`
(length 2 < 3), accepts `alice`'s `hello`; and in general a message
passes only if each of the five filter conditions holds. -/
theorem c9_filter_scenario_and_conditions :
    shouldProcessMessage
        { username := "bob".toList, message := "hi there".toList,
          isBot := false, badges := [] } c9settingsFx = false
    ∧ shouldProcessMessage
        { username := "alice".toList, message := "hi".toList,
          isBot := false, badges := [] } c9settingsFx = false
    ∧ shouldProcessMessage
        { username := "alice".toList, message := "hello".toList,
          isBot := false, badges := [] } c9settingsFx = true
    ∧ ∀ (m : ChatMessage) (st : TTSSettings),
        shouldProcessMessage m st = true →
          st.enabled = true
          ∧ ¬ (st.filterBots = true ∧ m.isBot = true)
          ∧ st.minMessageLength ≤ m.message.length
          ∧ st.blockedUsers.contains (toLowerStr m.username) = false
          ∧ ¬ (st.skipEmoteOnly = true ∧ isLikelyEmoteOnly m.message = true) := by
  refine ⟨by decide, by decide, by decide, ?_⟩
  intro m st h
  simp only [shouldProcessMessage] at h
  split_ifs at h with h1 h2 h3 h4 h5
  refine ⟨?_, ?_, ?_, ?_, ?_⟩
  · revert h1
    cases st.enabled <;> simp
  · intro hc
    exact h2 (by simp [hc.1, hc.2])
  · omega
  · revert h4
    cases st.blockedUsers.contains (toLowerStr m.username) <;> simp
  · intro hc
    exact h5 (by simp [hc.1, hc.2])

theorem c9_filter_scenario_and_conditions_witness :
    shouldProcessMessage
        { username := "alice".toList, message := "hello".toList,
          isBot := false, badges := [] } c9settingsFx = true
    ∧ c9settingsFx.enabled = true :=
  ⟨by decide,
   (c9_filter_scenario_and_conditions.2.2.2
      { username := "alice".toList, message := "hello".toList,
        isBot := false, badges := [] } c9settingsFx (by decide)).1⟩

/-! ### Claim C10: usernames ending in `bot` are classified automated -/

/-- C10: every parsed inbound message whose username ends in `bot`
(case-insensitively) is classified automated (`isBot = true`) — via
the `/bot$/i` pattern of `isUserBot`, irrespective of the badge
list. -/
theorem c10_bot_suffix_is_automated :
    ∀ (line : List Char) (m : ChatMessage),
      parseIRCMessage line = some m →
      List.isSuffixOf ("bot".toList) (toLowerStr m.username) = true →
      m.isBot = true := by
  intro line m hparse hsuf
  rcases hm : matchPrivmsg line with _ | ⟨tags, u, t⟩
  · simp [parseIRCMessage, hm] at hparse
  · simp only [parseIRCMessage, hm] at hparse
    cases hparse
    simp only [isUserBot]
    simp_all

theorem c10_bot_suffix_is_automated_witness :
    parseIRCMessage lineBotFx = some mBotFx ∧ mBotFx.isBot = true :=
  ⟨by decide, c10_bot_suffix_is_automated lineBotFx mBotFx (by decide) (by decide)⟩

/-! ### Claim C1: the active-slot/in-flight invariant (violated) -/

/-- C1 (code bug exhibit): after `add("***")`, `add("hello")` and the
first deferred `processNext`, the engine reaches an observable state
(all microtasks drained) in which the `hello` narration is in flight
(`synthesis` is speaking it and the service still holds its
utterance) while `currentItem` is `none` — the `catch` block of
`processNext` (which does not compare item identity) ran after
`handleTTSError` had already advanced the queue, and evicted the item
that was legitimately speaking, also marking it completed
(`completedLog = [0, 1]`). -/
theorem c1_active_slot_invariant_violated :
    c1sFx.currentItem = none
    ∧ c1sFx.synthQueue.map (fun i => i.message) = [okMsgFx]
    ∧ c1sFx.currentUtterance.isSome = true
    ∧ c1sFx.isProcessing = false
    ∧ c1sFx.queue = []
    ∧ c1sFx.completedLog = [0, 1]
    ∧ c1sFx.speakLog = [okMsgFx] := by
  decide

/-! ### Claim C5: `connect()` after a caller-initiated disconnect -/

theorem ccflag_step (s : CCState) (e : CEvent)
    (h : s.isIntentionalDisconnect = true) :
    (applyCEvent s e).isIntentionalDisconnect = true := by
  cases e <;> simp only [applyCEvent]
  · simp only [connectRun]
    split
    · exact h
    · simp [h]
  · simp only [disconnectRun, clearReconnectTimeoutRun]
    split <;> split <;> rfl
  · split <;> simp [handleConnectionOpenRun, h]
  · split <;>
      simp only [handleConnectionCloseRun, scheduleReconnectRun,
        clearReconnectTimeoutRun, h, if_true]
  · split <;>
      simp only [handleConnectionErrorRun, scheduleReconnectRun,
        clearReconnectTimeoutRun, h, if_true]
  · split
    · exact h
    · simp only [connectRun]
      split
      · exact h
      · simp [h]

theorem ccflag_run (es : List CEvent) :
    ∀ s : CCState, s.isIntentionalDisconnect = true →
      (runCCFrom s es).isIntentionalDisconnect = true := by
  induction es with
  | nil => intro s h; exact h
  | cons e rest ih =>
    intro s h
    exact ih (applyCEvent s e) (ccflag_step s e h)

/-- C5 (code bug exhibit): after a completed caller-initiated
`disconnect()`, `connect()` is a permanent no-op — `connect` tests
`isIntentionalDisconnect` *before* the (now unreachable) statement
that would reset it, and no other code path ever clears the flag, so
no new transport is ever opened and the status stays `disconnected`
under every further event sequence. -/
theorem c5_connect_noop_after_disconnect :
    (c5sFx.status = ConnStatus.disconnected
      ∧ c5sFx.isIntentionalDisconnect = true
      ∧ connectRun c5sFx = c5sFx
      ∧ runCC [CEvent.connectCall, CEvent.openEvt, CEvent.disconnectCall,
               CEvent.connectCall] = c5sFx)
    ∧ (∀ s : CCState, s.isIntentionalDisconnect = true → connectRun s = s)
    ∧ (∀ (s : CCState) (es : List CEvent), s.isIntentionalDisconnect = true →
        (runCCFrom s es).isIntentionalDisconnect = true) := by
  refine ⟨by decide, ?_, fun s es h => ccflag_run es s h⟩
  intro s h
  simp only [connectRun]
  split
  · rfl
  · simp [h]

theorem c5_connect_noop_after_disconnect_witness :
    connectRun c5sFx = c5sFx
    ∧ (runCCFrom c5sFx [CEvent.connectCall]).isIntentionalDisconnect = true :=
  ⟨c5_connect_noop_after_disconnect.2.1 c5sFx (by decide),
   c5_connect_noop_after_disconnect.2.2 c5sFx [CEvent.connectCall] (by decide)⟩

/-! ### Claim C6: backoff delays, cap, retry ceiling -/

/-- C6: with `baseReconnectDelay = 1000`, the delays computed for
attempt-counter values 0..4 are 1000, 2000, 4000, 8000, 16000 ms;
every later attempt is capped at 30000 ms; and once the attempt count
reaches the ceiling `maxReconnectAttempts = 10`, `scheduleReconnect`
refuses to arm a timer and emits the terminal
`Max reconnection attempts reached` error. -/
theorem c6_backoff_delays_and_ceiling :
    [0, 1, 2, 3, 4].map computeDelay = [1000, 2000, 4000, 8000, 16000]
    ∧ (∀ a : Nat, 5 ≤ a → computeDelay a = 30000)
    ∧ maxReconnectAttempts = 10
    ∧ ∀ s : CCState, maxReconnectAttempts ≤ s.reconnectAttempts →
        scheduleReconnectRun s
          = { s with emitLog := s.emitLog ++ [CEmit.errorE true],
                     isReconnecting := false } := by
  refine ⟨by decide, ?_, rfl, ?_⟩
  · intro a ha
    have h2 : (32 : Nat) ≤ 2 ^ a := by
      calc (32 : Nat) = 2 ^ 5 := by norm_num
        _ ≤ 2 ^ a := Nat.pow_le_pow_right (by norm_num) ha
    simp only [computeDelay, baseReconnectDelay]
    omega
  · intro s h
    simp [scheduleReconnectRun, h]

theorem c6_backoff_delays_and_ceiling_witness :
    computeDelay 7 = 30000
    ∧ scheduleReconnectRun cc10Fx
        = { cc10Fx with emitLog := cc10Fx.emitLog ++ [CEmit.errorE true],
                        isReconnecting := false } :=
  ⟨c6_backoff_delays_and_ceiling.2.1 7 (by norm_num),
   c6_backoff_delays_and_ceiling.2.2.2 cc10Fx (by decide)⟩

/-! ### Claim C7: reconnect-timer serialization -/

theorem ccinv_clear (s : CCState) (h : CCTimerInv s) :
    (clearReconnectTimeoutRun s).timersArmed = []
    ∧ (clearReconnectTimeoutRun s).reconnectTimeout = none := by
  rcases h with h | ⟨tid, ht, hr⟩
  · simp only [clearReconnectTimeoutRun]
    rcases hrt : s.reconnectTimeout with _ | id <;> simp [hrt, h]
  · simp [clearReconnectTimeoutRun, hr, ht]

theorem ccinv_sched (s : CCState) (h : CCTimerInv s) :
    CCTimerInv (scheduleReconnectRun s) := by
  simp only [scheduleReconnectRun]
  split
  · rcases h with h | ⟨tid, ht, hr⟩
    · exact Or.inl h
    · exact Or.inr ⟨tid, ht, hr⟩
  · split
    · exact h
    · have hc := ccinv_clear { s with isReconnecting := true }
        (by rcases h with h | ⟨tid, ht, hr⟩
            · exact Or.inl h
            · exact Or.inr ⟨tid, ht, hr⟩)
      exact Or.inr ⟨_, by simp [hc.1], rfl⟩

theorem connectRun_timers (s : CCState) :
    (connectRun s).timersArmed = s.timersArmed
    ∧ (connectRun s).reconnectTimeout = s.reconnectTimeout := by
  simp only [connectRun]
  split
  · exact ⟨rfl, rfl⟩
  · split
    · exact ⟨rfl, rfl⟩
    · exact ⟨rfl, rfl⟩

theorem ccinv_step (s : CCState) (e : CEvent) (h : CCTimerInv s) :
    CCTimerInv (applyCEvent s e) := by
  cases e <;> simp only [applyCEvent]
  · -- connectCall
    simp only [connectRun]
    split
    · exact h
    · split
      · exact h
      · rcases h with h | ⟨tid, ht, hr⟩
        · exact Or.inl h
        · exact Or.inr ⟨tid, ht, hr⟩
  · -- disconnectCall
    simp only [disconnectRun]
    have hc := ccinv_clear { s with isIntentionalDisconnect := true }
      (by rcases h with h | ⟨tid, ht, hr⟩
          · exact Or.inl h
          · exact Or.inr ⟨tid, ht, hr⟩)
    split <;> exact Or.inl (by simp [hc.1])
  · -- openEvt
    split
    · rcases h with h | ⟨tid, ht, hr⟩
      · exact Or.inl (by simp [handleConnectionOpenRun, h])
      · exact Or.inr ⟨tid, by simp [handleConnectionOpenRun, ht], by
          simp [handleConnectionOpenRun, hr]⟩
    · exact h
  · -- closeEvt
    split
    · simp only [handleConnectionCloseRun]
      split
      · rcases h with h | ⟨tid, ht, hr⟩
        · exact Or.inl (by simp [h])
        · exact Or.inr ⟨tid, by simp [ht], by simp [hr]⟩
      · apply ccinv_sched
        rcases h with h | ⟨tid, ht, hr⟩
        · exact Or.inl (by simp [h])
        · exact Or.inr ⟨tid, by simp [ht], by simp [hr]⟩
    · exact h
  · -- errorEvt
    split
    · simp only [handleConnectionErrorRun]
      split
      · rcases h with h | ⟨tid, ht, hr⟩
        · exact Or.inl (by simp [h])
        · exact Or.inr ⟨tid, by simp [ht], by simp [hr]⟩
      · apply ccinv_sched
        rcases h with h | ⟨tid, ht, hr⟩
        · exact Or.inl (by simp [h])
        · exact Or.inr ⟨tid, by simp [ht], by simp [hr]⟩
    · exact h
  · -- timerFire
    rcases h with h | ⟨tid, ht, hr⟩
    · simp only [h]
      exact Or.inl h
    · simp only [ht, List.erase_cons_head]
      exact Or.inl (connectRun_timers _).1

theorem ccinv_run (es : List CEvent) :
    ∀ s : CCState, CCTimerInv s → CCTimerInv (runCCFrom s es) := by
  induction es with
  | nil => intro s h; exact h
  | cons e rest ih => intro s h; exact ih (applyCEvent s e) (ccinv_step s e h)

/-- C7 counterexample: with one reconnect timer armed (after the
first transport error), a second transport error does *not* refuse to
schedule — `scheduleReconnect` arms a second timer (the schedule log
grows, a fresh timer replaces the pending one), because
`clearReconnectTimeout` resets `isReconnecting` before the guard can
ever observe it. -/
theorem c7_second_schedule_not_refused :
    (¬ c7s1Fx.timersArmed = [])
    ∧ c7s1Fx.scheduleLog.length = 1
    ∧ (applyCEvent c7s1Fx CEvent.errorEvt).scheduleLog.length = 2
    ∧ (applyCEvent c7s1Fx CEvent.errorEvt).timersArmed = [1]
    ∧ c7s1Fx.isReconnecting = false := by
  decide

/-- C7 (amended): in every reachable state at most one reconnect timer
is armed; however, a schedule request arriving while a timer is
pending is not refused — it cancels the pending timer and arms a
replacement (logging a new arming), since the `isReconnecting` guard
is reset by `clearReconnectTimeout` inside `scheduleReconnect`
itself. -/
theorem c7_at_most_one_timer_armed :
    (∀ es : List CEvent, (runCC es).timersArmed.length ≤ 1)
    ∧ (∀ (s : CCState) (tid : Nat),
        s.isReconnecting = false →
        s.reconnectAttempts < maxReconnectAttempts →
        s.timersArmed = [tid] →
        s.reconnectTimeout = some tid →
          (scheduleReconnectRun s).timersArmed = [s.nextTimerId]
          ∧ (scheduleReconnectRun s).scheduleLog
              = s.scheduleLog
                ++ [(s.reconnectAttempts, computeDelay s.reconnectAttempts)]) := by
  constructor
  · intro es
    have h := ccinv_run es initCC (Or.inl rfl)
    rcases h with h | ⟨tid, ht, _⟩
    · show (runCCFrom initCC es).timersArmed.length ≤ 1
      rw [h]; decide
    · show (runCCFrom initCC es).timersArmed.length ≤ 1
      rw [ht]; simp
  · intro s tid h1 h2 h3 h4
    have hmax : ¬ maxReconnectAttempts ≤ s.reconnectAttempts := by omega
    simp [scheduleReconnectRun, hmax, h1, clearReconnectTimeoutRun, h4, h3]

theorem c7_at_most_one_timer_armed_witness :
    (runCC [CEvent.connectCall, CEvent.errorEvt]).timersArmed.length ≤ 1
    ∧ (scheduleReconnectRun c7s1Fx).timersArmed = [c7s1Fx.nextTimerId] :=
  ⟨c7_at_most_one_timer_armed.1 [CEvent.connectCall, CEvent.errorEvt],
   (c7_at_most_one_timer_armed.2 c7s1Fx 0 (by decide) (by decide) (by decide)
      (by decide)).1⟩

/-! ### Queue-engine helper lemmas -/

theorem drainMicro_nil (f : Nat) (s : QMState) (h : s.microtasks = []) :
    drainMicro f s = s := by
  cases f with
  | zero => rfl
  | succ f => simp [drainMicro, h]

theorem drainState_nil (s : QMState) (h : s.microtasks = []) :
    drainState s = s :=
  drainMicro_nil _ s h

theorem drainState_res1 (s : QMState) (h : s.microtasks = [SpeakOutcome.resolved]) :
    drainState s = { s with microtasks := [] } := by
  simp only [drainState, h, List.length_singleton]
  rw [show 1 + s.queue.length + 1 = (1 + s.queue.length) + 1 from rfl]
  simp only [drainMicro, h]
  exact drainMicro_nil _ _ rfl

theorem processNextRun_noop (f : Nat) (s : QMState)
    (h : s.isProcessing = true ∨ s.queue = []) :
    processNextRun f s = s := by
  cases f with
  | zero => rfl
  | succ f =>
    rcases h with h | h <;> simp [processNextRun, processNextCore, h]

theorem processNextRun_start (f : Nat) (s : QMState) (x : QItem)
    (rest : List QItem)
    (hp : s.isProcessing = false) (hq : s.queue = x :: rest)
    (hsup : s.supported = true) (hen : s.enabled = true)
    (hut : s.currentUtterance = none)
    (hgood : speakableMsg x.message = true) :
    processNextRun (f + 1) s
      = { s with queue := rest,
                 currentItem := some { x with status := QStatus.speaking },
                 isProcessing := true,
                 currentUtterance := some { x with status := QStatus.speaking },
                 synthQueue := s.synthQueue ++ [{ x with status := QStatus.speaking }],
                 speakLog := s.speakLog ++ [x.message],
                 microtasks := s.microtasks ++ [SpeakOutcome.resolved] } := by
  have hgood2 : ¬ trimJS (preprocessMessage x.message.message) = [] := by
    simpa [speakableMsg] using hgood
  simp [processNextRun, processNextCore, speakCore, hq, hp, hsup, hen, hut, hgood2]

/-! ### Claim C3: `skip()` wedges the queue -/

theorem stalled_step (s : QMState) (e : QEvent) (h : StalledQ s)
    (he : noRescueEv e = true) :
    StalledQ (applyQEvent s e) ∧ (applyQEvent s e).speakLog = s.speakLog := by
  obtain ⟨hip, hta, hsy, hc, hmi⟩ := h
  cases e with
  | add m =>
    refine ⟨⟨?_, ?_, ?_, ?_, ?_⟩, ?_⟩ <;> simp [applyQEvent, addRun, hip, hta, hsy, hc, hmi]
  | timeout =>
    rw [show applyQEvent s QEvent.timeout = s by simp [applyQEvent, hta]]
    exact ⟨⟨hip, hta, hsy, hc, hmi⟩, rfl⟩
  | ended =>
    rw [show applyQEvent s QEvent.ended = s by simp [applyQEvent, hsy]]
    exact ⟨⟨hip, hta, hsy, hc, hmi⟩, rfl⟩
  | speechError =>
    rw [show applyQEvent s QEvent.speechError = s by simp [applyQEvent, hsy]]
    exact ⟨⟨hip, hta, hsy, hc, hmi⟩, rfl⟩
  | skip =>
    rw [show applyQEvent s QEvent.skip = s by simp [applyQEvent, skipRun, hc]]
    exact ⟨⟨hip, hta, hsy, hc, hmi⟩, rfl⟩
  | remove itemId => simp [noRescueEv] at he
  | clear => simp [noRescueEv] at he

theorem stalled_run (es : List QEvent) :
    ∀ s : QMState, StalledQ s → (∀ e ∈ es, noRescueEv e = true) →
      StalledQ (runQFrom s es) ∧ (runQFrom s es).speakLog = s.speakLog := by
  induction es with
  | nil => intro s h _; exact ⟨h, rfl⟩
  | cons e rest ih =>
    intro s h hes
    have h1 := stalled_step s e h (hes e (by simp))
    have h2 := ih (applyQEvent s e) h1.1 (fun e2 he2 => hes e2 (by simp [he2]))
    exact ⟨h2.1, h2.2.trans h1.2⟩

/-- C3 (code bug exhibit): in the state narrating `okMsgFx` with
`okMsg2Fx` pending, `skip()` returns `true`, marks the active item
completed and clears the active slot — but its direct `processNext()`
call is a no-op because `skip` never resets `isProcessing`, so the
pending item stays pending and is never handed to the narration
engine under any further sequence of add/timeout/ended/error/skip
events (only `remove`/`clear`, which reset `isProcessing`, can
unwedge the engine). -/
theorem c3_skip_wedges_the_queue :
    (skipRun c3preFx).1 = true
    ∧ (skipRun c3preFx).2.currentItem = none
    ∧ (skipRun c3preFx).2.completedLog = [0]
    ∧ (skipRun c3preFx).2.queue.map (fun i => (i.message, i.status))
        = [(okMsg2Fx, QStatus.pending)]
    ∧ (skipRun c3preFx).2.isProcessing = true
    ∧ (skipRun c3preFx).2.speakLog = [okMsgFx]
    ∧ ∀ es : List QEvent, (∀ e ∈ es, noRescueEv e = true) →
        (runQFrom (skipRun c3preFx).2 es).speakLog = [okMsgFx] := by
  refine ⟨by decide, by decide, by decide, by decide, by decide, by decide, ?_⟩
  intro es hes
  have hst : StalledQ (skipRun c3preFx).2 := by
    refine ⟨?_, ?_, ?_, ?_, ?_⟩ <;> decide
  have := stalled_run es (skipRun c3preFx).2 hst hes
  rw [this.2]
  decide

theorem c3_skip_wedges_the_queue_witness :
    (runQFrom (skipRun c3preFx).2 [QEvent.timeout, QEvent.add okMsgFx]).speakLog
      = [okMsgFx] :=
  c3_skip_wedges_the_queue.2.2.2.2.2.2 [QEvent.timeout, QEvent.add okMsgFx]
    (by decide)

/-! ### Step lemmas on `GoodState` states -/

theorem applyQ_timeout_busy (s : QMState) (c : QItem)
    (hGS : GoodState s) (hc : s.currentItem = some c) :
    applyQEvent s QEvent.timeout
      = if s.tasks = 0 then s else { s with tasks := s.tasks - 1 } := by
  obtain ⟨hen, hsup, hmi, harr, hqall, hcu, hsy, hip⟩ := hGS
  rw [hc] at hip
  by_cases ht : s.tasks = 0
  · simp [applyQEvent, ht]
  · simp only [applyQEvent, if_neg ht, ht, if_false]
    rw [processNextRun_noop _ _ (Or.inl (by simp [hip]))]
    exact drainState_nil _ (by simp [hmi])

theorem applyQ_timeout_idle_nil (s : QMState)
    (hGS : GoodState s) (_hc : s.currentItem = none) (hq : s.queue = []) :
    applyQEvent s QEvent.timeout
      = if s.tasks = 0 then s else { s with tasks := s.tasks - 1 } := by
  obtain ⟨hen, hsup, hmi, harr, hqall, hcu, hsy, hip⟩ := hGS
  by_cases ht : s.tasks = 0
  · simp [applyQEvent, ht]
  · simp only [applyQEvent, if_neg ht, ht, if_false]
    rw [processNextRun_noop _ _ (Or.inr (by simp [hq]))]
    exact drainState_nil _ (by simp [hmi])

theorem applyQ_timeout_idle_cons (s : QMState) (x : QItem) (rest : List QItem)
    (hGS : GoodState s) (hc : s.currentItem = none) (hq : s.queue = x :: rest)
    (ht : ¬ s.tasks = 0) :
    applyQEvent s QEvent.timeout
      = { s with tasks := s.tasks - 1, queue := rest,
                 currentItem := some { x with status := QStatus.speaking },
                 isProcessing := true,
                 currentUtterance := some { x with status := QStatus.speaking },
                 synthQueue := [{ x with status := QStatus.speaking }],
                 speakLog := s.speakLog ++ [x.message] } := by
  obtain ⟨hen, hsup, hmi, harr, hqall, hcu, hsy, hip⟩ := hGS
  rw [hc] at hcu hsy hip
  simp only [Option.toList] at hsy
  simp only [Option.isSome] at hip
  simp only [applyQEvent, if_neg ht, ht, if_false]
  rw [show ({ s with tasks := s.tasks - 1 } : QMState).queue.length + 1
        = rest.length + 1 + 1 by simp [hq]]
  rw [processNextRun_start (rest.length + 1) _ x rest (by simp [hip])
        (by simp [hq]) (by simp [hsup]) (by simp [hen]) (by simp [hcu])
        (hqall x (by simp [hq])).2]
  rw [drainState_res1 _ (by simp [hmi])]
  simp [hmi, hsy]

theorem applyQ_ended_nil (s : QMState) (x : QItem)
    (hGS : GoodState s) (hc : s.currentItem = some x) (hq : s.queue = []) :
    applyQEvent s QEvent.ended
      = { s with synthQueue := [], currentUtterance := none,
                 currentItem := none, isProcessing := false,
                 completedLog := s.completedLog ++ [x.id] } := by
  obtain ⟨hen, hsup, hmi, harr, hqall, hcu, hsy, hip⟩ := hGS
  rw [hc] at hcu hsy hip
  simp only [Option.toList] at hsy
  simp only [applyQEvent, hsy]
  simp only [handleTTSEndedRun, handleTTSEndedCore]
  simp only [hc]
  rw [if_pos trivial]
  rw [processNextRun_noop _ _ (Or.inr (by simp [hq]))]
  rw [drainState_nil _ (by simp [hmi])]

theorem applyQ_ended_cons (s : QMState) (x y : QItem) (rest : List QItem)
    (hGS : GoodState s) (hc : s.currentItem = some x)
    (hq : s.queue = y :: rest) :
    applyQEvent s QEvent.ended
      = { s with queue := rest,
                 currentItem := some { y with status := QStatus.speaking },
                 isProcessing := true,
                 currentUtterance := some { y with status := QStatus.speaking },
                 synthQueue := [{ y with status := QStatus.speaking }],
                 speakLog := s.speakLog ++ [y.message],
                 completedLog := s.completedLog ++ [x.id] } := by
  obtain ⟨hen, hsup, hmi, harr, hqall, hcu, hsy, hip⟩ := hGS
  rw [hc] at hcu hsy hip
  simp only [Option.toList] at hsy
  simp only [applyQEvent, hsy]
  simp only [handleTTSEndedRun, handleTTSEndedCore]
  simp only [hc]
  rw [if_pos trivial]
  rw [show ({ s with synthQueue := [], currentUtterance := none } : QMState).queue.length + 1
        = rest.length + 1 + 1 by simp [hq]]
  rw [processNextRun_start (rest.length + 1) _ y rest rfl (by simp [hq])
        (by simp [hsup]) (by simp [hen]) rfl (hqall y (by simp [hq])).2]
  rw [drainState_res1 _ (by simp [hmi])]
  simp [hmi]

theorem applyQ_error_nil (s : QMState) (x : QItem)
    (hGS : GoodState s) (hc : s.currentItem = some x) (hq : s.queue = []) :
    applyQEvent s QEvent.speechError
      = { s with synthQueue := [], currentUtterance := none,
                 currentItem := none, isProcessing := false,
                 completedLog := s.completedLog ++ [x.id],
                 errorLog := s.errorLog ++ [x.id] } := by
  obtain ⟨hen, hsup, hmi, harr, hqall, hcu, hsy, hip⟩ := hGS
  rw [hc] at hcu hsy hip
  simp only [Option.toList] at hsy
  simp only [applyQEvent, hsy]
  simp only [handleTTSErrorRun, handleTTSErrorCore]
  simp only [hc]
  rw [if_pos trivial]
  rw [processNextRun_noop _ _ (Or.inr (by simp [hq]))]
  rw [drainState_nil _ (by simp [hmi])]

theorem applyQ_error_cons (s : QMState) (x y : QItem) (rest : List QItem)
    (hGS : GoodState s) (hc : s.currentItem = some x)
    (hq : s.queue = y :: rest) :
    applyQEvent s QEvent.speechError
      = { s with queue := rest,
                 currentItem := some { y with status := QStatus.speaking },
                 isProcessing := true,
                 currentUtterance := some { y with status := QStatus.speaking },
                 synthQueue := [{ y with status := QStatus.speaking }],
                 speakLog := s.speakLog ++ [y.message],
                 completedLog := s.completedLog ++ [x.id],
                 errorLog := s.errorLog ++ [x.id] } := by
  obtain ⟨hen, hsup, hmi, harr, hqall, hcu, hsy, hip⟩ := hGS
  rw [hc] at hcu hsy hip
  simp only [Option.toList] at hsy
  simp only [applyQEvent, hsy]
  simp only [handleTTSErrorRun, handleTTSErrorCore]
  simp only [hc]
  rw [if_pos trivial]
  rw [show ({ s with synthQueue := [], currentUtterance := none,
                     errorLog := s.errorLog ++ [x.id] } : QMState).queue.length + 1
        = rest.length + 1 + 1 by simp [hq]]
  rw [processNextRun_start (rest.length + 1) _ y rest rfl (by simp [hq])
        (by simp [hsup]) (by simp [hen]) rfl (hqall y (by simp [hq])).2]
  rw [drainState_res1 _ (by simp [hmi])]
  simp [hmi]

theorem applyQ_add_idle (s : QMState) (m : ChatMessage)
    (hp : s.isProcessing = false) :
    applyQEvent s (QEvent.add m)
      = { s with queue := s.queue
                   ++ [{ id := s.nextItemId, message := m,
                         status := QStatus.pending }],
                 nextItemId := s.nextItemId + 1,
                 arrivalLog := s.arrivalLog ++ [m],
                 tasks := s.tasks + 1 } := by
  simp [applyQEvent, addRun, hp]

theorem applyQ_add_busy (s : QMState) (m : ChatMessage)
    (hp : s.isProcessing = true) :
    applyQEvent s (QEvent.add m)
      = { s with queue := s.queue
                   ++ [{ id := s.nextItemId, message := m,
                         status := QStatus.pending }],
                 nextItemId := s.nextItemId + 1,
                 arrivalLog := s.arrivalLog ++ [m] } := by
  simp [applyQEvent, addRun, hp]

theorem gs_tasks (s : QMState) (t : Nat) (h : GoodState s) :
    GoodState { s with tasks := t } := by
  obtain ⟨hen, hsup, hmi, harr, hqall, hcu, hsy, hip⟩ := h
  exact ⟨hen, hsup, hmi, harr, hqall, hcu, hsy, hip⟩

theorem gs_step (s : QMState) (e : QEvent) (hGS : GoodState s)
    (he : goodQEv e = true) : GoodState (applyQEvent s e) := by
  cases e with
  | add m =>
    have hm : speakableMsg m = true := by simpa [goodQEv] using he
    obtain ⟨hen, hsup, hmi, harr, hqall, hcu, hsy, hip⟩ := hGS
    have hmem : ∀ i ∈ s.queue
          ++ [{ id := s.nextItemId, message := m,
                status := QStatus.pending }],
        i.status = QStatus.pending ∧ speakableMsg i.message = true := by
      intro i hi
      rcases List.mem_append.mp hi with hi | hi
      · exact hqall i hi
      · rw [List.mem_singleton.mp hi]
        exact ⟨rfl, hm⟩
    cases hp : s.isProcessing with
    | false =>
      rw [applyQ_add_idle s m hp]
      exact ⟨hen, hsup, hmi, by simp [harr], hmem, hcu, hsy, hip⟩
    | true =>
      rw [applyQ_add_busy s m hp]
      exact ⟨hen, hsup, hmi, by simp [harr], hmem, hcu, hsy, hip⟩
  | timeout =>
    rcases hc : s.currentItem with _ | c
    · rcases hq : s.queue with _ | ⟨x, rest⟩
      · rw [applyQ_timeout_idle_nil s hGS hc hq]
        split
        · exact hGS
        · exact gs_tasks s _ hGS
      · by_cases ht : s.tasks = 0
        · rw [show applyQEvent s QEvent.timeout = s by simp [applyQEvent, ht]]
          exact hGS
        · rw [applyQ_timeout_idle_cons s x rest hGS hc hq ht]
          obtain ⟨hen, hsup, hmi, harr, hqall, hcu, hsy, hip⟩ := hGS
          refine ⟨by simp [hen], by simp [hsup], by simp [hmi], ?_, ?_, rfl, rfl, rfl⟩
          · simp [harr, hq]
          · intro i hi
            exact hqall i (by simp [hq, List.mem_cons]; exact Or.inr hi)
    · rw [applyQ_timeout_busy s c hGS hc]
      split
      · exact hGS
      · exact gs_tasks s _ hGS
  | ended =>
    rcases hc : s.currentItem with _ | x
    · obtain ⟨hen, hsup, hmi, harr, hqall, hcu, hsy, hip⟩ := hGS
      have hsy2 : s.synthQueue = [] := by rw [hsy, hc]; rfl
      rw [show applyQEvent s QEvent.ended = s by simp [applyQEvent, hsy2]]
      exact ⟨hen, hsup, hmi, harr, hqall, hcu, hsy, hip⟩
    · rcases hq : s.queue with _ | ⟨y, rest⟩
      · rw [applyQ_ended_nil s x hGS hc hq]
        obtain ⟨hen, hsup, hmi, harr, hqall, hcu, hsy, hip⟩ := hGS
        refine ⟨by simp [hen], by simp [hsup], by simp [hmi], ?_, ?_, rfl, rfl, rfl⟩
        · simp [harr]
        · intro i hi
          exact hqall i hi
      · rw [applyQ_ended_cons s x y rest hGS hc hq]
        obtain ⟨hen, hsup, hmi, harr, hqall, hcu, hsy, hip⟩ := hGS
        refine ⟨by simp [hen], by simp [hsup], by simp [hmi], ?_, ?_, rfl, rfl, rfl⟩
        · simp [harr, hq]
        · intro i hi
          exact hqall i (by simp [hq, List.mem_cons]; exact Or.inr hi)
  | speechError =>
    rcases hc : s.currentItem with _ | x
    · obtain ⟨hen, hsup, hmi, harr, hqall, hcu, hsy, hip⟩ := hGS
      have hsy2 : s.synthQueue = [] := by rw [hsy, hc]; rfl
      rw [show applyQEvent s QEvent.speechError = s by simp [applyQEvent, hsy2]]
      exact ⟨hen, hsup, hmi, harr, hqall, hcu, hsy, hip⟩
    · rcases hq : s.queue with _ | ⟨y, rest⟩
      · rw [applyQ_error_nil s x hGS hc hq]
        obtain ⟨hen, hsup, hmi, harr, hqall, hcu, hsy, hip⟩ := hGS
        refine ⟨by simp [hen], by simp [hsup], by simp [hmi], ?_, ?_, rfl, rfl, rfl⟩
        · simp [harr]
        · intro i hi
          exact hqall i hi
      · rw [applyQ_error_cons s x y rest hGS hc hq]
        obtain ⟨hen, hsup, hmi, harr, hqall, hcu, hsy, hip⟩ := hGS
        refine ⟨by simp [hen], by simp [hsup], by simp [hmi], ?_, ?_, rfl, rfl, rfl⟩
        · simp [harr, hq]
        · intro i hi
          exact hqall i (by simp [hq, List.mem_cons]; exact Or.inr hi)
  | skip => simp [goodQEv] at he
  | remove itemId => simp [goodQEv] at he
  | clear => simp [goodQEv] at he

theorem gs_run (es : List QEvent) :
    ∀ s : QMState, GoodState s → (∀ e ∈ es, goodQEv e = true) →
      GoodState (runQFrom s es) := by
  induction es with
  | nil => intro s h _; exact h
  | cons e rest ih =>
    intro s h hes
    exact ih (applyQEvent s e) (gs_step s e h (hes e (by simp)))
      (fun e2 he2 => hes e2 (by simp [he2]))

theorem gs_initQM : GoodState initQM := by
  refine ⟨rfl, rfl, rfl, rfl, ?_, rfl, rfl, rfl⟩
  intro i hi
  cases hi

/-! ### Claim C2: strict FIFO narration order -/

theorem run_adds (msgs : List ChatMessage) :
    ∀ s : QMState, s.isProcessing = false →
      (runQFrom s (msgs.map QEvent.add)).queue.map (fun i => i.message)
          = s.queue.map (fun i => i.message) ++ msgs
      ∧ (runQFrom s (msgs.map QEvent.add)).currentItem = s.currentItem
      ∧ (runQFrom s (msgs.map QEvent.add)).isProcessing = false
      ∧ (runQFrom s (msgs.map QEvent.add)).speakLog = s.speakLog
      ∧ (runQFrom s (msgs.map QEvent.add)).tasks = s.tasks + msgs.length := by
  induction msgs with
  | nil => intro s hp; exact ⟨by simp [runQFrom], rfl, hp, rfl, rfl⟩
  | cons m rest ih =>
    intro s hp
    have hstep : applyQEvent s (QEvent.add m)
        = { s with queue := s.queue
                     ++ [{ id := s.nextItemId, message := m,
                           status := QStatus.pending }],
                   nextItemId := s.nextItemId + 1,
                   arrivalLog := s.arrivalLog ++ [m],
                   tasks := s.tasks + 1 } := applyQ_add_idle s m hp
    have hrun : runQFrom s ((m :: rest).map QEvent.add)
        = runQFrom (applyQEvent s (QEvent.add m)) (rest.map QEvent.add) := rfl
    have ih2 := ih (applyQEvent s (QEvent.add m)) (by rw [hstep]; exact hp)
    rw [hrun]
    refine ⟨?_, ?_, ih2.2.2.1, ?_, ?_⟩
    · rw [ih2.1, hstep]
      simp
    · rw [ih2.2.1, hstep]
    · rw [ih2.2.2.2.1, hstep]
    · rw [ih2.2.2.2.2, hstep]
      simp only [List.length_cons]
      omega

theorem run_ended_all (q : List QItem) :
    ∀ (s : QMState) (x : QItem), GoodState s → s.currentItem = some x →
      s.queue = q →
      (runQFrom s (List.replicate q.length QEvent.ended)).speakLog
        = s.speakLog ++ q.map (fun i => i.message) := by
  induction q with
  | nil => intro s x _ _ _; simp [runQFrom]
  | cons y rest ih =>
    intro s x hGS hc hq
    have hGS2 := gs_step s QEvent.ended hGS (by rfl)
    rw [applyQ_ended_cons s x y rest hGS hc hq] at hGS2
    have hrun : runQFrom s (List.replicate (y :: rest).length QEvent.ended)
        = runQFrom (applyQEvent s QEvent.ended)
            (List.replicate rest.length QEvent.ended) := by
      simp only [List.length_cons, List.replicate_succ]
      rfl
    rw [hrun, applyQ_ended_cons s x y rest hGS hc hq]
    rw [ih _ { y with status := QStatus.speaking } hGS2 rfl rfl]
    simp

/-- C2: (i) across every sequence of add / deferred-processNext /
utterance-completion / utterance-error events with speakable messages
(no removals, skips or clears), the messages handed to the narration
engine are an exact prefix of the messages added, in arrival order —
no reordering and no priority; (ii) for any messages `m :: rest`, the
canonical schedule (all adds, the deferred `processNext`, then one
completion event per remaining item) narrates exactly
`m :: rest`: narration begins with `m` and the engine is invoked in
exactly arrival order. -/
theorem c2_strict_fifo_order :
    (∀ es : List QEvent, (∀ e ∈ es, goodQEv e = true) →
      ∃ t, (runQ es).arrivalLog = (runQ es).speakLog ++ t)
    ∧ (∀ (m : ChatMessage) (rest : List ChatMessage),
        speakableMsg m = true → (∀ m2 ∈ rest, speakableMsg m2 = true) →
        (runQ ((m :: rest).map QEvent.add
            ++ QEvent.timeout :: List.replicate rest.length QEvent.ended)).speakLog
          = m :: rest) := by
  constructor
  · intro es hes
    obtain ⟨_, _, _, harr, _, _, _, _⟩ := gs_run es initQM gs_initQM hes
    exact ⟨_, harr⟩
  · intro m rest hm hrest
    have hadds := run_adds (m :: rest) initQM rfl
    have hGS1 : GoodState (runQFrom initQM ((m :: rest).map QEvent.add)) := by
      refine gs_run _ initQM gs_initQM ?_
      intro e he
      rcases List.mem_map.mp he with ⟨m2, hm2, rfl⟩
      rcases List.mem_cons.mp hm2 with h | h
      · subst h; simpa [goodQEv] using hm
      · simpa [goodQEv] using hrest m2 h
    set s1 := runQFrom initQM ((m :: rest).map QEvent.add) with hs1
    obtain ⟨hqmap, hcur, hproc, hlog, htasks⟩ := hadds
    have hcur2 : s1.currentItem = none := hcur.trans rfl
    have hlog2 : s1.speakLog = [] := hlog.trans rfl
    have hqmap2 : s1.queue.map (fun i => i.message) = m :: rest := by
      rw [hqmap]
      rfl
    clear hqmap hcur hlog
    rcases hqq : s1.queue with _ | ⟨x, restQ⟩
    · rw [hqq] at hqmap2
      simp at hqmap2
    · rw [hqq] at hqmap2
      simp only [List.map_cons, List.cons.injEq] at hqmap2
      obtain ⟨hxm, hrestm⟩ := hqmap2
      have ht0 : ¬ s1.tasks = 0 := by
        rw [htasks]
        simp [initQM]
      have hsplit : runQ ((m :: rest).map QEvent.add
            ++ QEvent.timeout :: List.replicate rest.length QEvent.ended)
          = runQFrom (applyQEvent s1 QEvent.timeout)
              (List.replicate rest.length QEvent.ended) := by
        rw [runQ, runQFrom, List.foldl_append]
        rfl
      have hGS2 := gs_step s1 QEvent.timeout hGS1 (by rfl)
      rw [applyQ_timeout_idle_cons s1 x restQ hGS1 hcur2 hqq ht0] at hGS2
      rw [hsplit]
      rw [applyQ_timeout_idle_cons s1 x restQ hGS1 hcur2 hqq ht0]
      have hlen : rest.length = restQ.length := by
        rw [← hrestm, List.length_map]
      rw [hlen]
      rw [run_ended_all restQ _ { x with status := QStatus.speaking } hGS2 rfl rfl]
      simp [hlog2, hxm, hrestm]

theorem c2_strict_fifo_order_witness :
    (∃ t, (runQ [QEvent.add okMsgFx, QEvent.timeout]).arrivalLog
        = (runQ [QEvent.add okMsgFx, QEvent.timeout]).speakLog ++ t)
    ∧ (runQ ([QEvent.add okMsgFx, QEvent.add okMsg2Fx]
          ++ QEvent.timeout :: List.replicate 1 QEvent.ended)).speakLog
        = [okMsgFx, okMsg2Fx] :=
  ⟨c2_strict_fifo_order.1 [QEvent.add okMsgFx, QEvent.timeout] (by decide),
   c2_strict_fifo_order.2 okMsgFx [okMsg2Fx] (by decide) (by decide)⟩

/-! ### Claim C4: narration-engine errors advance like completions -/

/-- C4: in any healthy state actively narrating item `x`, an utterance
`error` event produces exactly the state the `end` event would, except
that the error is logged on the `tts:error` channel
(`errorLog ++ [x.id]`); in particular the active slot is cleared
(empty backlog) or the next pending item immediately becomes active
and is handed to the engine (non-empty backlog) — the error never
halts subsequent narrations. -/
theorem c4_error_advances_like_completion (s : QMState) (x : QItem)
    (hGS : GoodState s) (hc : s.currentItem = some x) :
    (applyQEvent s QEvent.speechError
        = { applyQEvent s QEvent.ended with
            errorLog := (applyQEvent s QEvent.ended).errorLog ++ [x.id] })
    ∧ (s.queue = [] → (applyQEvent s QEvent.speechError).currentItem = none)
    ∧ (∀ (y : QItem) (rest : List QItem), s.queue = y :: rest →
        (applyQEvent s QEvent.speechError).currentItem
            = some { y with status := QStatus.speaking }
        ∧ (applyQEvent s QEvent.speechError).speakLog
            = s.speakLog ++ [y.message]) := by
  rcases hq : s.queue with _ | ⟨y, rest⟩
  · rw [applyQ_error_nil s x hGS hc hq, applyQ_ended_nil s x hGS hc hq]
    refine ⟨rfl, fun _ => rfl, ?_⟩
    intro y rest hq2
    exact absurd hq2 (by simp)
  · rw [applyQ_error_cons s x y rest hGS hc hq,
        applyQ_ended_cons s x y rest hGS hc hq]
    refine ⟨rfl, ?_, ?_⟩
    · intro hq2
      exact absurd hq2 (by simp)
    · intro y2 rest2 hq2
      obtain ⟨h1, h2⟩ := List.cons.injEq .. ▸ hq2
      subst h1
      exact ⟨rfl, rfl⟩

theorem c4_error_advances_like_completion_witness :
    applyQEvent c4sFx QEvent.speechError
        = { applyQEvent c4sFx QEvent.ended with
            errorLog := (applyQEvent c4sFx QEvent.ended).errorLog ++ [0] }
    ∧ (applyQEvent c4sFx QEvent.speechError).currentItem
        = some { id := 1, message := okMsg2Fx, status := QStatus.speaking } :=
  ⟨(c4_error_advances_like_completion c4sFx c4xFx
      (by refine ⟨?_, ?_, ?_, ?_, ?_, ?_, ?_, ?_⟩ <;> decide) (by decide)).1,
   ((c4_error_advances_like_completion c4sFx c4xFx
      (by refine ⟨?_, ?_, ?_, ?_, ?_, ?_, ?_, ?_⟩ <;> decide) (by decide)).2.2
      c4yFx [] (by decide)).1⟩
